import Mathlib

/-!
Shallow embedding of the camera/world synchronization core of the
ZacStern scroll-driven 3D portfolio site.

Sources embedded here:
* `src/unnamed/part_009` — the final `CameraController` iteration
  (path travel + face-normal dock): navigation, active-section scan,
  per-frame `update`.
* `src/scene.js` — noise utilities (`hash2D`, `smoothNoise`, `fbm`,
  local `smoothstep`), `World.createTerrain` per-vertex displacement,
  `World._getSurfaceDisplacement`, `World.getBillboardFaceInfo`,
  `World.getBillboardCorners`.
* `src/main.js` — `App._positionPanelOnBillboard` (the decision logic
  from the projected corner points onward, over exact rationals).

JS `number` is modelled as `ℝ` (`ℚ` where the code is purely
rational arithmetic), `Math.floor` as `Int.floor`, `undefined`/`null`
returns as `Option`.  THREE.js helpers used by the code
(`Vector3`, `MathUtils.smoothstep`, `Matrix4`/quaternion application)
are embedded from their library definitions.
-/

namespace ZacStern

noncomputable section

/-- THREE.Vector3: a 3-component vector over the reals. -/
structure Vec3 where
  x : ℝ
  y : ℝ
  z : ℝ

/-- Componentwise addition (THREE.Vector3.add). -/
def Vec3.add (a b : Vec3) : Vec3 := ⟨a.x + b.x, a.y + b.y, a.z + b.z⟩

/-- Componentwise subtraction (THREE.Vector3.sub / subVectors). -/
def Vec3.sub (a b : Vec3) : Vec3 := ⟨a.x - b.x, a.y - b.y, a.z - b.z⟩

/-- Scalar multiple (THREE.Vector3.multiplyScalar). -/
def Vec3.smul (s : ℝ) (a : Vec3) : Vec3 := ⟨s * a.x, s * a.y, s * a.z⟩

/-- THREE.Vector3.addScaledVector: `this + v * s`. -/
def Vec3.addScaled (a v : Vec3) (s : ℝ) : Vec3 :=
  ⟨a.x + v.x * s, a.y + v.y * s, a.z + v.z * s⟩

/-- Dot product (THREE.Vector3.dot). -/
def Vec3.dot (a b : Vec3) : ℝ := a.x * b.x + a.y * b.y + a.z * b.z

/-- Cross product (THREE.Vector3.crossVectors). -/
def Vec3.cross (a b : Vec3) : Vec3 :=
  ⟨a.y * b.z - a.z * b.y, a.z * b.x - a.x * b.z, a.x * b.y - a.y * b.x⟩

/-- Euclidean length (THREE.Vector3.length). -/
def Vec3.length (a : Vec3) : ℝ := Real.sqrt (a.x * a.x + a.y * a.y + a.z * a.z)

/-- THREE.Vector3.normalize: `divideScalar(length() || 1)` — a
zero-length vector is left unchanged (division by `1`). -/
def Vec3.normalize (a : Vec3) : Vec3 :=
  if a.length = 0 then a else ⟨a.x / a.length, a.y / a.length, a.z / a.length⟩

/-- THREE.Vector3.lerp: `this + (v - this) * alpha`, componentwise. -/
def Vec3.lerp (a b : Vec3) (alpha : ℝ) : Vec3 :=
  ⟨a.x + (b.x - a.x) * alpha, a.y + (b.y - a.y) * alpha, a.z + (b.z - a.z) * alpha⟩

/-- THREE.MathUtils.smoothstep: `0` below `lo`, `1` above `hi`, cubic
Hermite `t·t·(3 − 2t)` of the normalized argument in between. -/
def mathUtilsSmoothstep (x lo hi : ℝ) : ℝ :=
  if x ≤ lo then 0
  else if hi ≤ x then 1
  else
    let t := (x - lo) / (hi - lo)
    t * t * (3 - 2 * t)

/-- One section entry of the `sections` array handed to the
CameraController: `{id, name, pathT}` (src/camera.js line 12);
the display name plays no role in the embedded logic. -/
structure SectionData where
  id : String
  pathT : ℝ

/-- Billboard face data from `World.getBillboardFaceInfo`:
`{ center, normal, up }` (src/scene.js lines 1671-1693). -/
structure FaceInfo where
  center : Vec3
  normal : Vec3
  up : Vec3

/-- Mutable per-frame state of the `CameraController` of
src/unnamed/part_009 (constructor, lines 20-54), restricted to the
fields that its pure per-frame logic reads or writes.  The camera
object owned by the controller is represented by its position, up
vector and last `lookAt` argument. -/
structure CamState where
  currentT : ℝ
  targetT : ℝ
  activeSectionIndex : ℤ
  activeSection : Option SectionData
  sections : List SectionData
  mouseX : ℝ
  mouseY : ℝ
  px : ℝ
  py : ℝ
  currentPos : Option Vec3
  currentUp : Vec3
  cameraPos : Vec3
  cameraUp : Vec3
  cameraLook : Vec3

/-- The exponential easing step
`current + (target - current) * (1 - Math.exp(-rate * deltaTime))`
used at src/unnamed/part_009 line 130 (rate = `lerpSpeed` = 1.8) and
src/camera.js lines 149-150 (rate = 1.5). -/
def easeStep (current target rate dt : ℝ) : ℝ :=
  current + (target - current) * (1 - Real.exp (-(rate * dt)))

/-- Endpoint clamp `Math.max(0, Math.min(0.999, t))` applied to the
eased path parameter (src/unnamed/part_009 line 131). -/
def clampT (t : ℝ) : ℝ := max 0 (min 0.999 t)

/-- The lock factor as a function of the curve-parameter distance `d`
to the active section: `THREE.MathUtils.smoothstep(1 - d / 0.055, 0, 1)`
(src/unnamed/part_009 line 142). -/
def lockFactor (d : ℝ) : ℝ := mathUtilsSmoothstep (1 - d / 0.055) 0 1

/-- The lock-factor computation of `update` step 2
(src/unnamed/part_009 lines 139-143): zero unless both a billboard
face info and an active section are present. -/
def lockTIn (t : ℝ) (fi : Option FaceInfo) (active : Option SectionData) : ℝ :=
  match fi, active with
  | some _, some sec => lockFactor |t - sec.pathT|
  | _, _ => 0

/-- Dock position of `update` step 5 (src/unnamed/part_009 lines
161-178): offset `DOCK_DIST = 22` along the camera-facing face normal,
then the Y coordinate snapped to the billboard face-centre Y.  Falls
back to the travel position when no face info is supplied. -/
def dockPosOf (travelPos cameraPos : Vec3) : Option FaceInfo → Vec3
  | none => travelPos
  | some f =>
    let toCamera := cameraPos.sub f.center
    let sign : ℝ := if 0 ≤ toCamera.dot f.normal then 1 else -1
    let faceNorm := Vec3.smul sign f.normal
    let rawDock := f.center.addScaled faceNorm 22
    ⟨rawDock.x, f.center.y, rawDock.z⟩

/-- The closest-section scan loop of `getActiveSection`
(src/unnamed/part_009 lines 113-117, identical to src/camera.js lines
90-101): walks the list keeping the strictly closest entry seen so
far (first of equals wins), together with its distance and index.
`none` as accumulator plays the role of the JS `Infinity` start. -/
def loopClosest (t : ℝ) : List SectionData → ℕ → Option (SectionData × ℝ × ℕ) →
    Option (SectionData × ℝ × ℕ)
  | [], _, best => best
  | s :: rest, i, none => loopClosest t rest (i + 1) (some (s, |t - s.pathT|, i))
  | s :: rest, i, some b =>
    loopClosest t rest (i + 1)
      (if |t - s.pathT| < b.2.1 then some (s, |t - s.pathT|, i) else some b)

/-- Result of the scan starting from an empty accumulator. -/
def getActiveScan (t : ℝ) (sections : List SectionData) : Option (SectionData × ℝ × ℕ) :=
  loopClosest t sections 0 none

/-- CameraController.getActiveSection (src/unnamed/part_009 lines
112-122): the closest section if its distance is below the snap
threshold `0.06`, else `null`. -/
def getActiveSection (t : ℝ) (sections : List SectionData) : Option SectionData :=
  match getActiveScan t sections with
  | some (s, d, _) => if d < 0.06 then some s else none
  | none => none

/-- The `activeSectionIndex` written by `getActiveSection`: the index
of the closest section, `0` for an empty list. -/
def activeIdxAfter (t : ℝ) (sections : List SectionData) : ℤ :=
  match getActiveScan t sections with
  | some (_, _, i) => (i : ℤ)
  | none => 0

/-- JS array indexing `sections[idx]` with a signed index:
`undefined` (here `none`) outside `[0, length)`. -/
def zget (l : List SectionData) (i : ℤ) : Option SectionData :=
  if h : 0 ≤ i ∧ i < l.length then some (l.get ⟨i.toNat, by omega⟩) else none

/-- Index computed by `goToNext`:
`Math.min(this.activeSectionIndex + 1, this.sections.length - 1)`
(src/unnamed/part_009 line 91, src/camera.js line 77). -/
def goToNextIdx (len activeIdx : ℤ) : ℤ := min (activeIdx + 1) (len - 1)

/-- Index computed by `goToPrev`:
`Math.max(this.activeSectionIndex - 1, 0)`
(src/unnamed/part_009 line 97, src/camera.js line 83). -/
def goToPrevIdx (activeIdx : ℤ) : ℤ := max (activeIdx - 1) 0

/-- The section returned by `goToNext` (src/unnamed/part_009 lines
90-94): `sections[min(i+1, length-1)]`.  The JS code dereferences the
result (`sections[idx].id`); `none` marks the out-of-bounds accesses on
which it would throw. -/
def goToNext (sections : List SectionData) (activeIdx : ℤ) : Option SectionData :=
  zget sections (goToNextIdx sections.length activeIdx)

/-- The section returned by `goToPrev` (src/unnamed/part_009 lines
96-100): `sections[max(i-1, 0)]`. -/
def goToPrev (sections : List SectionData) (activeIdx : ℤ) : Option SectionData :=
  zget sections (goToPrevIdx activeIdx)

/-- CameraController.update of src/unnamed/part_009 (lines 128-214),
as a pure step function.  `getPoint`/`getTangent` are the path query
services (`this.path`), `dt` the frame delta, `fi` the
`billboardFaceInfo` argument.  Camera orientation is represented by
the `lookAt` argument (`cameraLook`); the timing-only `isSnapping`
machinery is outside the per-frame data flow. -/
def update (getPoint getTangent : ℝ → Vec3) (st : CamState) (dt : ℝ)
    (fi : Option FaceInfo) : CamState × Option SectionData :=
  -- step 1: advance path progress, clamp
  let t2 := clampT (easeStep st.currentT st.targetT 1.8 dt)
  let pathPos := getPoint t2
  let tangent := (getTangent t2).normalize
  let radialUp := pathPos.normalize
  let right := (Vec3.cross tangent radialUp).normalize
  -- step 2: lock factor
  let lockT := lockTIn t2 fi st.activeSection
  -- step 3: idle parallax, faded out by the lock factor
  let pLerp := 1 - Real.exp (-(4 * dt))
  let pAmt := 0.8 * (1 - lockT)
  let px2 := st.px + (st.mouseX * pAmt - st.px) * pLerp
  let py2 := st.py + (st.mouseY * pAmt * 0.5 - st.py) * pLerp
  -- step 4: travel position
  let travelPos := (pathPos.addScaled right px2).addScaled radialUp (py2 * 0.3)
  -- step 5: dock position / up
  let dockPos := dockPosOf travelPos st.cameraPos fi
  let dockUp := match fi with
    | some f => f.up
    | none => radialUp
  -- step 6: blend travel and dock
  let basePos := st.currentPos.getD travelPos
  let posAlpha := 1 - Real.exp (-(3.5 * dt))
  let targetPos := if 0.001 < lockT then Vec3.lerp dockPos travelPos (1 - lockT) else travelPos
  let newPos := Vec3.lerp basePos targetPos posAlpha
  let newUp := (Vec3.lerp st.currentUp (if 0.001 < lockT then dockUp else radialUp)
      (1 - Real.exp (-(4 * dt)))).normalize
  -- step 7: set camera, look target
  let lookAheadPt := getPoint (min (t2 + 0.012) 0.999)
  let look := match fi with
    | some f =>
      if 0.001 < lockT then Vec3.lerp lookAheadPt f.center lockT
      else (lookAheadPt.addScaled right (px2 * 0.3)).addScaled radialUp (py2 * 0.15)
    | none => (lookAheadPt.addScaled right (px2 * 0.3)).addScaled radialUp (py2 * 0.15)
  let newActive := getActiveSection t2 st.sections
  ({ st with
      currentT := t2
      px := px2
      py := py2
      currentPos := some newPos
      currentUp := newUp
      cameraPos := newPos
      cameraUp := newUp
      cameraLook := look
      activeSection := newActive
      activeSectionIndex := activeIdxAfter t2 st.sections },
    newActive)

/-- Noise hash of src/scene.js lines 14-17:
`n = sin(x·127.1 + y·311.7)·43758.5453; n - floor(n)`. -/
def hash2D (x y : ℝ) : ℝ :=
  let n := Real.sin (x * 127.1 + y * 311.7) * 43758.5453
  n - ⌊n⌋

/-- Bilinearly interpolated value noise of src/scene.js lines 19-29. -/
def smoothNoise (x y : ℝ) : ℝ :=
  let ix : ℤ := ⌊x⌋
  let iy : ℤ := ⌊y⌋
  let fx := x - ix
  let fy := y - iy
  let ux := fx * fx * (3 - 2 * fx)
  let uy := fy * fy * (3 - 2 * fy)
  let a := hash2D ix iy
  let b := hash2D (ix + 1) iy
  let c := hash2D ix (iy + 1)
  let d := hash2D (ix + 1) (iy + 1)
  a + (b - a) * ux + (c - a) * uy + (a - b - c + d) * ux * uy

/-- The octave loop of `fbm` (src/scene.js lines 31-40), carrying
`(val, amp, freq, max)` exactly as the JS loop does. -/
def fbmLoop (x y : ℝ) : ℕ → ℝ × ℝ × ℝ × ℝ → ℝ × ℝ × ℝ × ℝ
  | 0, s => s
  | n + 1, (val, amp, freq, maxA) =>
    fbmLoop x y n (val + smoothNoise (x * freq) (y * freq) * amp, amp * 0.48, freq * 2.1,
      maxA + amp)

/-- Fractal Brownian motion noise of src/scene.js lines 31-40:
`octaves` octaves of value noise, amplitude falloff 0.48, frequency
growth 2.1, normalized by the accumulated amplitude. -/
def fbm (x y : ℝ) (octaves : ℕ) : ℝ :=
  let s := fbmLoop x y octaves (0, 1, 1, 0)
  s.1 / s.2.2.2

/-- The local `smoothstep(edge0, edge1, x)` of src/scene.js lines
42-45: clamp the normalized argument to `[0,1]`, then `t·t·(3-2t)`. -/
def smoothstepS (edge0 edge1 x : ℝ) : ℝ :=
  let t := max 0 (min 1 ((x - edge0) / (edge1 - edge0)))
  t * t * (3 - 2 * t)

/-- JS `Math.atan2(y, x)`, the argument of the point `(x, y)`. -/
def atan2 (y x : ℝ) : ℝ := Complex.arg ⟨x, y⟩

/-- Arc distance on the sphere of radius `R` between two unit
directions: `acos(clamp(dot, -1, 1)) * R`
(src/scene.js lines 158-160). -/
def arcDist (n ppdir : Vec3) (R : ℝ) : ℝ :=
  Real.arccos (max (-1) (min 1 (n.dot ppdir))) * R

/-- The `minDist` loop of `createTerrain` (src/scene.js lines
156-162): minimum arc distance of the vertex direction to the
pre-sampled path directions; `none` is the JS `Infinity` start. -/
def minArcDist (n : Vec3) (samples : List Vec3) (R : ℝ) : Option ℝ :=
  samples.foldl
    (fun best pp =>
      let a := arcDist n pp R
      match best with
      | none => some a
      | some m => if a < m then some a else some m)
    none

/-- Road flattening of `createTerrain` (src/scene.js lines 164-169):
within `roadWidth + blendWidth = 4 + 10` of the path, scale the noise
height by `smoothstep(0, 1, max(0, (minDist - 4) / 10))`; the `none`
case is the untouched `Infinity` distance of an empty sample list. -/
def roadBlendH (h : ℝ) : Option ℝ → ℝ
  | none => h
  | some minDist =>
    if minDist < 4 + 10 then h * smoothstepS 0 1 (max 0 ((minDist - 4) / 10)) else h

/-- Raw terrain height displacement at spherical coordinates
(src/scene.js lines 152-153):
`fbm(θ·4+50, φ·6+50, 5)·4 - 1 + sin(5θ)·cos(4φ)·0.8`. -/
def terrainH (theta phi : ℝ) : ℝ :=
  fbm (theta * 4 + 50) (phi * 6 + 50) 5 * 4 - 1 +
    Real.sin (theta * 5) * Real.cos (phi * 4) * 0.8

/-- World._getSurfaceDisplacement (src/scene.js lines 799-803): the
same displacement formula exposed as a query. -/
def getSurfaceDisplacement (theta phi : ℝ) : ℝ :=
  fbm (theta * 4 + 50) (phi * 6 + 50) 5 * 4 - 1 +
    Real.sin (theta * 5) * Real.cos (phi * 4) * 0.8

/-- One iteration of the `createTerrain` vertex loop (src/scene.js
lines 138-175): normalize the vertex, derive spherical coordinates,
compute the noise height, flatten near the road, and re-place the
vertex at radius `R + h`.  A zero-radius vertex is skipped
(`continue`) and returned unchanged. -/
def createTerrainVertex (v : Vec3) (samples : List Vec3) (R : ℝ) : Vec3 :=
  let r := v.length
  if r = 0 then v
  else
    let n : Vec3 := ⟨v.x / r, v.y / r, v.z / r⟩
    let theta := atan2 n.z n.x
    let phi := Real.arccos (max (-1) (min 1 n.y))
    let h := terrainH theta phi
    let h2 := roadBlendH h (minArcDist n samples R)
    let newR := R + h2
    ⟨n.x * newR, n.y * newR, n.z * newR⟩

/-- THREE.Matrix4, written with row-column named entries
(`m14`, `m24`, `m34` the translation column). -/
structure Mat4 where
  m11 : ℝ
  m12 : ℝ
  m13 : ℝ
  m14 : ℝ
  m21 : ℝ
  m22 : ℝ
  m23 : ℝ
  m24 : ℝ
  m31 : ℝ
  m32 : ℝ
  m33 : ℝ
  m34 : ℝ
  m41 : ℝ
  m42 : ℝ
  m43 : ℝ
  m44 : ℝ

/-- THREE.Vector3.applyMatrix4: full projective application including
the perspective divide by `w`. -/
def Vec3.applyMatrix4 (v : Vec3) (m : Mat4) : Vec3 :=
  let w := 1 / (m.m41 * v.x + m.m42 * v.y + m.m43 * v.z + m.m44)
  ⟨(m.m11 * v.x + m.m12 * v.y + m.m13 * v.z + m.m14) * w,
   (m.m21 * v.x + m.m22 * v.y + m.m23 * v.z + m.m24) * w,
   (m.m31 * v.x + m.m32 * v.y + m.m33 * v.z + m.m34) * w⟩

/-- THREE.Quaternion components. -/
structure Quat where
  x : ℝ
  y : ℝ
  z : ℝ
  w : ℝ

/-- THREE.Vector3.applyQuaternion: `v + 2w·t + 2(q × t)` with
`t = q × v`, written out exactly as in the library source. -/
def Vec3.applyQuaternion (v : Vec3) (q : Quat) : Vec3 :=
  let tx := 2 * (q.y * v.z - q.z * v.y)
  let ty := 2 * (q.z * v.x - q.x * v.z)
  let tz := 2 * (q.x * v.y - q.y * v.x)
  ⟨v.x + q.w * tx + q.y * tz - q.z * ty,
   v.y + q.w * ty + q.z * tx - q.x * tz,
   v.z + q.w * tz + q.x * ty - q.y * tx⟩

/-- One entry of `World.portalMeshes`: its section id, the board mesh
given by its world matrix when present (`portal.board` may be absent
for a landmark without a board), and the landmark group world
orientation (`portal.group.getWorldQuaternion`). -/
structure Portal where
  sectionId : String
  board : Option Mat4
  groupQuat : Quat

/-- Face-info computation for one found portal (the body of
`getBillboardFaceInfo` after the `find`): `null` without a board, else
the world-space face centre `(0,0,0.35)·M`, the normalized world image
of local `+Z`, and the normalized group-local `+Y` in world space. -/
def faceInfoOfPortal (p : Portal) : Option FaceInfo :=
  match p.board with
  | none => none
  | some m =>
    let center := Vec3.applyMatrix4 ⟨0, 0, 0.35⟩ m
    let origin := Vec3.applyMatrix4 ⟨0, 0, 0⟩ m
    let normalPt := Vec3.applyMatrix4 ⟨0, 0, 1⟩ m
    let normal := (normalPt.sub origin).normalize
    let up := (Vec3.applyQuaternion ⟨0, 1, 0⟩ p.groupQuat).normalize
    some ⟨center, normal, up⟩

/-- World.getBillboardFaceInfo (src/scene.js lines 1671-1693):
`null` when no portal matches the id or the portal has no board. -/
def getBillboardFaceInfo (portals : List Portal) (sid : String) : Option FaceInfo :=
  match portals.find? (fun p => p.sectionId == sid) with
  | none => none
  | some p => faceInfoOfPortal p

/-- Result record of `World.getBillboardCorners`. -/
structure Corners where
  topLeft : Vec3
  topRight : Vec3
  bottomLeft : Vec3
  bottomRight : Vec3
  center : Vec3

/-- Corner computation for one found portal (the body of
`getBillboardCorners` after the `find`): the four front-face corners
of the 20×14 board (half-width 10, half-height 7, face plane
`z = 0.35`) mapped through the board world matrix, plus the midpoint
of the top-left and bottom-right corners. -/
def cornersOfPortal (p : Portal) : Option Corners :=
  match p.board with
  | none => none
  | some m =>
    let tl := Vec3.applyMatrix4 ⟨-10, 7, 0.35⟩ m
    let tr := Vec3.applyMatrix4 ⟨10, 7, 0.35⟩ m
    let bl := Vec3.applyMatrix4 ⟨-10, -7, 0.35⟩ m
    let br := Vec3.applyMatrix4 ⟨10, -7, 0.35⟩ m
    some ⟨tl, tr, bl, br, Vec3.smul 0.5 (tl.add br)⟩

/-- World.getBillboardCorners (src/scene.js lines 1697-1730): `null`
when no portal matches the id or the portal has no board. -/
def getBillboardCorners (portals : List Portal) (sid : String) : Option Corners :=
  match portals.find? (fun p => p.sectionId == sid) with
  | none => none
  | some p => cornersOfPortal p

end

/-- A projected corner point of `_positionPanelOnBillboard`
(src/main.js lines 531-538): pixel x/y and NDC depth z.  The pixel
mapping and the subsequent layout decisions are exact rational
arithmetic, so the screen-space logic is embedded over `ℚ`. -/
structure ProjPt where
  x : ℚ
  y : ℚ
  z : ℚ
deriving DecidableEq

/-- Observable effect of one `_positionPanelOnBillboard` call on the
panel DOM: an early `return` that leaves the panel exactly as it was,
a reset to the default centred layout (`cssText = ''` plus removal of
`billboard-active`), or a positioned panel with the bounding rect and
the rounded `clip-path` corner offsets (TL, TR, BR, BL order). -/
inductive PanelOutcome where
  | unchanged : PanelOutcome
  | defaultLayout : PanelOutcome
  | positioned (left top width height : ℚ)
      (clip : (ℤ × ℤ) × (ℤ × ℤ) × (ℤ × ℤ) × (ℤ × ℤ)) : PanelOutcome
deriving DecidableEq

/-- JS `Math.round`: half-integers round toward `+∞`. -/
def jsRound (q : ℚ) : ℤ := ⌊q + 1 / 2⌋

/-- The clamped bounding rectangle `(left, top, right, bottom)` of the
projected quad (src/main.js lines 545-556): min/max of the corner
pixels, clamped to the viewport with a 2px margin and a 56px navbar
reserve at the top. -/
def clampedRect (tl tr bl br : ProjPt) (w h : ℚ) : ℚ × ℚ × ℚ × ℚ :=
  let left := max 2 (min (min tl.x tr.x) (min bl.x br.x))
  let top := max (56 + 2) (min (min tl.y tr.y) (min bl.y br.y))
  let right := min (w - 2) (max (max tl.x tr.x) (max bl.x br.x))
  let bottom := min (h - 2) (max (max tl.y tr.y) (max bl.y br.y))
  (left, top, right, bottom)

/-- App._positionPanelOnBillboard from the projected corners onward
(src/main.js lines 540-621): bail out with a plain `return` when any
projected corner is behind the camera (`z > 1`); reset the panel to
the default centred layout when the clamped rectangle is under 80×80;
otherwise position the panel over the bounding rect with the
projected-quad `clip-path`. -/
def positionPanel (tl tr bl br : ProjPt) (w h : ℚ) : PanelOutcome :=
  if 1 < tl.z ∨ 1 < tr.z ∨ 1 < bl.z ∨ 1 < br.z then .unchanged
  else if (clampedRect tl tr bl br w h).2.2.1 - (clampedRect tl tr bl br w h).1 < 80
      ∨ (clampedRect tl tr bl br w h).2.2.2 - (clampedRect tl tr bl br w h).2.1 < 80 then
    .defaultLayout
  else
    .positioned (clampedRect tl tr bl br w h).1 (clampedRect tl tr bl br w h).2.1
      ((clampedRect tl tr bl br w h).2.2.1 - (clampedRect tl tr bl br w h).1)
      ((clampedRect tl tr bl br w h).2.2.2 - (clampedRect tl tr bl br w h).2.1)
      ((jsRound (tl.x - (clampedRect tl tr bl br w h).1),
        jsRound (tl.y - (clampedRect tl tr bl br w h).2.1)),
       (jsRound (tr.x - (clampedRect tl tr bl br w h).1),
        jsRound (tr.y - (clampedRect tl tr bl br w h).2.1)),
       (jsRound (br.x - (clampedRect tl tr bl br w h).1),
        jsRound (br.y - (clampedRect tl tr bl br w h).2.1)),
       (jsRound (bl.x - (clampedRect tl tr bl br w h).1),
        jsRound (bl.y - (clampedRect tl tr bl br w h).2.1)))

/-! Supporting lemmas about the unit smoothstep
`THREE.MathUtils.smoothstep(x, 0, 1)`. -/

theorem ss01_eq (x : ℝ) :
    mathUtilsSmoothstep x 0 1 =
      if x ≤ 0 then 0 else if 1 ≤ x then 1 else x * x * (3 - 2 * x) := by
  simp only [mathUtilsSmoothstep, sub_zero, div_one]

theorem ss01_zero_of {x : ℝ} (h : x ≤ 0) : mathUtilsSmoothstep x 0 1 = 0 := by
  rw [ss01_eq, if_pos h]

theorem ss01_one_of {x : ℝ} (h : 1 ≤ x) : mathUtilsSmoothstep x 0 1 = 1 := by
  rw [ss01_eq, if_neg (by linarith), if_pos h]

theorem ss01_nonneg (x : ℝ) : 0 ≤ mathUtilsSmoothstep x 0 1 := by
  rw [ss01_eq]
  split_ifs with h1 h2
  · exact le_refl 0
  · exact zero_le_one
  · push_neg at h1 h2
    nlinarith

theorem ss01_le_one (x : ℝ) : mathUtilsSmoothstep x 0 1 ≤ 1 := by
  rw [ss01_eq]
  split_ifs with h1 h2
  · exact zero_le_one
  · exact le_refl 1
  · push_neg at h1 h2
    nlinarith [mul_nonneg (sq_nonneg (1 - x)) (by linarith : (0:ℝ) ≤ 1 + 2 * x)]

theorem ss01_mono : Monotone fun x : ℝ => mathUtilsSmoothstep x 0 1 := by
  intro a b hab
  show mathUtilsSmoothstep a 0 1 ≤ mathUtilsSmoothstep b 0 1
  rcases le_or_lt a 0 with ha | ha
  · rw [ss01_zero_of ha]
    exact ss01_nonneg b
  rcases le_or_lt 1 b with hb | hb
  · rw [ss01_one_of hb]
    exact ss01_le_one a
  have hna : ¬ a ≤ 0 := not_le.2 ha
  have hnb : ¬ b ≤ 0 := not_le.2 (lt_of_lt_of_le ha hab)
  have h1a : ¬ 1 ≤ a := not_le.2 (lt_of_le_of_lt hab hb)
  have h1b : ¬ 1 ≤ b := not_le.2 hb
  rw [ss01_eq, ss01_eq, if_neg hna, if_neg h1a, if_neg hnb, if_neg h1b]
  have h1 : a * a ≤ a := by nlinarith
  have h2 : b * b ≤ b := by nlinarith
  have h3 : 2 * (a * b) ≤ a + b := by nlinarith [sq_nonneg (a - b)]
  have key : 0 ≤ 3 * (a + b) - 2 * (a * a + a * b + b * b) := by linarith
  nlinarith [mul_nonneg (by linarith : (0:ℝ) ≤ b - a) key]

theorem ss01_eq_one_iff (x : ℝ) : mathUtilsSmoothstep x 0 1 = 1 ↔ 1 ≤ x := by
  constructor
  · intro h
    by_contra hx
    push_neg at hx
    rcases le_or_lt x 0 with h0 | h0
    · rw [ss01_zero_of h0] at h
      norm_num at h
    · rw [ss01_eq, if_neg (not_le.2 h0), if_neg (not_le.2 hx)] at h
      nlinarith [mul_nonneg (sq_nonneg (1 - x)) (by linarith : (0:ℝ) ≤ 1 + 2 * x),
        sq_nonneg (1 - x), mul_pos (mul_pos h0 h0) (by linarith : (0:ℝ) < 1 + 2 * x)]
  · exact ss01_one_of

theorem ss01_cont : Continuous fun x : ℝ => mathUtilsSmoothstep x 0 1 := by
  have hrw : (fun x : ℝ => mathUtilsSmoothstep x 0 1) =
      fun x : ℝ => if x ≤ 0 then 0 else if 1 ≤ x then 1 else x * x * (3 - 2 * x) :=
    funext ss01_eq
  rw [hrw]
  have hinner : Continuous fun x : ℝ =>
      if (1:ℝ) ≤ x then (1:ℝ) else x * x * (3 - 2 * x) := by
    apply Continuous.if_le continuous_const (by continuity) continuous_const continuous_id
    intro a ha
    simp only [id] at ha
    rw [← ha]
    norm_num
  apply Continuous.if_le continuous_const hinner continuous_id continuous_const
  intro a ha
  simp only [id] at ha
  rw [ha]
  norm_num

/-- C2: the lock factor computed each frame by `CameraController.update`
is the smoothstep `lockFactor d = smoothstep(1 - d/0.055, 0, 1)` of the
distance `d = |currentT - activeSection.pathT|`; it is continuous, lies
in `[0, 1]`, increases monotonically as `d` decreases (antitone in
`d`), vanishes for every `d` at or beyond the `0.055` snap window, and
equals `1` exactly at zero distance. -/
theorem C2_lockFactor_shape :
    Continuous lockFactor
    ∧ (∀ d : ℝ, 0 ≤ lockFactor d ∧ lockFactor d ≤ 1)
    ∧ Antitone lockFactor
    ∧ (∀ d : ℝ, 0.055 ≤ d → lockFactor d = 0)
    ∧ (∀ d : ℝ, 0 ≤ d → (lockFactor d = 1 ↔ d = 0))
    ∧ (∀ (t : ℝ) (fi : FaceInfo) (sec : SectionData),
        lockTIn t (some fi) (some sec) = lockFactor |t - sec.pathT|) := by
  have hcomp : lockFactor =
      (fun x : ℝ => mathUtilsSmoothstep x 0 1) ∘ (fun d : ℝ => 1 - d / 0.055) := rfl
  refine ⟨?_, fun d => ⟨ss01_nonneg _, ss01_le_one _⟩, ?_, ?_, ?_, fun t fi sec => rfl⟩
  · rw [hcomp]
    exact ss01_cont.comp (by continuity)
  · intro a b hab
    apply ss01_mono
    have hdiv : a / 0.055 ≤ b / 0.055 :=
      (div_le_div_right (by norm_num : (0:ℝ) < 0.055)).2 hab
    linarith
  · intro d hd
    apply ss01_zero_of
    have hdiv : (1:ℝ) ≤ d / 0.055 := by
      rw [le_div_iff₀ (by norm_num : (0:ℝ) < 0.055)]
      linarith
    linarith
  · intro d hd
    unfold lockFactor
    rw [ss01_eq_one_iff]
    constructor
    · intro h
      have hdiv : d / 0.055 ≤ 0 := by linarith
      by_contra hne
      have hpos : 0 < d := lt_of_le_of_ne hd (Ne.symm hne)
      have : 0 < d / 0.055 := div_pos hpos (by norm_num)
      linarith
    · intro h
      rw [h]
      norm_num

/-- Witness for C2 at concrete distances: the lock factor vanishes at
`d = 1` (outside the snap window) and equals one at `d = 0`. -/
theorem C2_lockFactor_shape_witness :
    lockFactor 1 = 0 ∧ (lockFactor 0 = 1 ↔ (0:ℝ) = 0) :=
  ⟨C2_lockFactor_shape.2.2.2.1 1 (by norm_num),
   C2_lockFactor_shape.2.2.2.2.1 0 (by norm_num)⟩

/-- C6: after every `CameraController.update` call the current curve
parameter is clamped into `[0, 0.999]`, for every starting state,
target and positive frame delta. -/
theorem C6_currentT_clamped (gp gt : ℝ → Vec3) (st : CamState) (dt : ℝ)
    (fi : Option FaceInfo) (hdt : 0 < dt) :
    0 ≤ (update gp gt st dt fi).1.currentT
      ∧ (update gp gt st dt fi).1.currentT ≤ 0.999 := by
  have h : (update gp gt st dt fi).1.currentT
      = clampT (easeStep st.currentT st.targetT 1.8 dt) := rfl
  rw [h, clampT]
  exact ⟨le_max_left _ _, max_le (by norm_num) (min_le_left _ _)⟩

/-- Witness for C6 at a concrete state, target and frame delta. -/
theorem C6_currentT_clamped_witness :
    0 ≤ (update (fun _ => ⟨0, 0, 0⟩) (fun _ => ⟨0, 0, 1⟩)
        { currentT := 0, targetT := 1, activeSectionIndex := 0, activeSection := none,
          sections := [], mouseX := 0, mouseY := 0, px := 0, py := 0,
          currentPos := none, currentUp := ⟨0, 0, 1⟩, cameraPos := ⟨0, 0, 0⟩,
          cameraUp := ⟨0, 1, 0⟩, cameraLook := ⟨0, 0, 0⟩ } 1 none).1.currentT
    ∧ (update (fun _ => ⟨0, 0, 0⟩) (fun _ => ⟨0, 0, 1⟩)
        { currentT := 0, targetT := 1, activeSectionIndex := 0, activeSection := none,
          sections := [], mouseX := 0, mouseY := 0, px := 0, py := 0,
          currentPos := none, currentUp := ⟨0, 0, 1⟩, cameraPos := ⟨0, 0, 0⟩,
          cameraUp := ⟨0, 1, 0⟩, cameraLook := ⟨0, 0, 0⟩ } 1 none).1.currentT ≤ 0.999 :=
  C6_currentT_clamped _ _ _ _ _ (by norm_num)

/-- C7: one exponential easing step of `update` multiplies the distance
to the target by exactly `exp(-lerpSpeed·dt)`: the distance never
increases and the value never crosses to the other side of the target;
and `update` applies exactly this step (rate `1.8`) to `currentT`
before the endpoint clamp. -/
theorem C7_ease_step (c t rate dt : ℝ) (hr : 0 < rate) (hdt : 0 < dt) :
    |easeStep c t rate dt - t| = Real.exp (-(rate * dt)) * |c - t|
    ∧ |easeStep c t rate dt - t| ≤ |c - t|
    ∧ 0 ≤ (t - easeStep c t rate dt) * (t - c)
    ∧ ∀ (gp gt : ℝ → Vec3) (st : CamState) (fi : Option FaceInfo),
        (update gp gt st dt fi).1.currentT
          = clampT (easeStep st.currentT st.targetT 1.8 dt) := by
  have he : easeStep c t rate dt - t = (c - t) * Real.exp (-(rate * dt)) := by
    simp only [easeStep]
    ring
  have hexp : (0:ℝ) < Real.exp (-(rate * dt)) := Real.exp_pos _
  have hle1 : Real.exp (-(rate * dt)) ≤ 1 := by
    rw [Real.exp_le_one_iff]
    nlinarith
  refine ⟨?_, ?_, ?_, fun gp gt st fi => rfl⟩
  · rw [he, abs_mul, abs_of_pos hexp]
    ring
  · rw [he, abs_mul, abs_of_pos hexp]
    calc |c - t| * Real.exp (-(rate * dt)) ≤ |c - t| * 1 :=
          mul_le_mul_of_nonneg_left hle1 (abs_nonneg _)
      _ = |c - t| := mul_one _
  · have h2 : t - easeStep c t rate dt = (t - c) * Real.exp (-(rate * dt)) := by
      simp only [easeStep]
      ring
    rw [h2]
    have h3 : (t - c) * Real.exp (-(rate * dt)) * (t - c)
        = (t - c) ^ 2 * Real.exp (-(rate * dt)) := by ring
    rw [h3]
    positivity

/-- Witness for C7 at a concrete step `c = 0, t = 1, rate = 1.8,
dt = 1`. -/
theorem C7_ease_step_witness :
    |easeStep 0 1 1.8 1 - 1| = Real.exp (-(1.8 * 1)) * |(0:ℝ) - 1|
    ∧ |easeStep 0 1 1.8 1 - 1| ≤ |(0:ℝ) - 1| :=
  ⟨(C7_ease_step 0 1 1.8 1 (by norm_num) (by norm_num)).1,
   (C7_ease_step 0 1 1.8 1 (by norm_num) (by norm_num)).2.1⟩

/-! Supporting lemmas about the closest-section scan loop. -/

theorem loopClosest_none {t : ℝ} {l : List SectionData} {i : ℕ}
    {b : Option (SectionData × ℝ × ℕ)}
    (h : loopClosest t l i b = none) : l = [] ∧ b = none := by
  induction l generalizing i b with
  | nil => exact ⟨rfl, h⟩
  | cons a rest ih =>
    rcases b with _ | bb
    · simp only [loopClosest] at h
      exact absurd (ih h).2 (by simp)
    · simp only [loopClosest] at h
      have h2 := (ih h).2
      split at h2 <;> simp at h2

theorem loopClosest_mem {t : ℝ} {l : List SectionData} {i : ℕ}
    {b : Option (SectionData × ℝ × ℕ)} {s : SectionData} {d : ℝ} {j : ℕ}
    (h : loopClosest t l i b = some (s, d, j)) :
    (s ∈ l ∧ d = |t - s.pathT|) ∨ b = some (s, d, j) := by
  induction l generalizing i b with
  | nil => exact Or.inr h
  | cons a rest ih =>
    rcases b with _ | bb
    · simp only [loopClosest] at h
      rcases ih h with ⟨hm, hd⟩ | heq
      · exact Or.inl ⟨List.mem_cons_of_mem _ hm, hd⟩
      · simp only [Option.some.injEq, Prod.mk.injEq] at heq
        obtain ⟨rfl, rfl, rfl⟩ := heq
        exact Or.inl ⟨List.mem_cons_self _ _, rfl⟩
    · simp only [loopClosest] at h
      rcases ih h with ⟨hm, hd⟩ | heq
      · exact Or.inl ⟨List.mem_cons_of_mem _ hm, hd⟩
      · split at heq
        · simp only [Option.some.injEq, Prod.mk.injEq] at heq
          obtain ⟨rfl, rfl, rfl⟩ := heq
          exact Or.inl ⟨List.mem_cons_self _ _, rfl⟩
        · exact Or.inr heq

theorem loopClosest_min {t : ℝ} {l : List SectionData} {i : ℕ}
    {b : Option (SectionData × ℝ × ℕ)} {s : SectionData} {d : ℝ} {j : ℕ}
    (h : loopClosest t l i b = some (s, d, j)) :
    (∀ s2 ∈ l, d ≤ |t - s2.pathT|) ∧ ∀ bb, b = some bb → d ≤ bb.2.1 := by
  induction l generalizing i b with
  | nil =>
    simp only [loopClosest] at h
    refine ⟨by simp, fun bb hbb => ?_⟩
    rw [h] at hbb
    simp only [Option.some.injEq] at hbb
    rw [← hbb]
  | cons a rest ih =>
    rcases b with _ | bb
    · simp only [loopClosest] at h
      have hstep := ih h
      have hda : d ≤ |t - a.pathT| := hstep.2 (a, |t - a.pathT|, i) rfl
      refine ⟨fun s2 hs2 => ?_, fun bb hbb => by simp at hbb⟩
      rcases List.mem_cons.1 hs2 with rfl | hmem
      · exact hda
      · exact hstep.1 s2 hmem
    · simp only [loopClosest] at h
      by_cases hcmp : |t - a.pathT| < bb.2.1
      · rw [if_pos hcmp] at h
        have hstep := ih h
        have hda : d ≤ |t - a.pathT| := hstep.2 (a, |t - a.pathT|, i) rfl
        refine ⟨fun s2 hs2 => ?_, fun bb2 hbb2 => ?_⟩
        · rcases List.mem_cons.1 hs2 with rfl | hmem
          · exact hda
          · exact hstep.1 s2 hmem
        · simp only [Option.some.injEq] at hbb2
          subst hbb2
          exact le_of_lt (lt_of_le_of_lt hda hcmp)
      · rw [if_neg hcmp] at h
        push_neg at hcmp
        have hstep := ih h
        have hdb : d ≤ bb.2.1 := hstep.2 bb rfl
        refine ⟨fun s2 hs2 => ?_, fun bb2 hbb2 => ?_⟩
        · rcases List.mem_cons.1 hs2 with rfl | hmem
          · exact le_trans hdb hcmp
          · exact hstep.1 s2 hmem
        · simp only [Option.some.injEq] at hbb2
          subst hbb2
          exact hdb

theorem getActiveSection_scan_some {t : ℝ} {sections : List SectionData}
    {s0 : SectionData} {d0 : ℝ} {j0 : ℕ}
    (h : getActiveScan t sections = some (s0, d0, j0)) :
    getActiveSection t sections = if d0 < 0.06 then some s0 else none := by
  unfold getActiveSection
  rw [h]

theorem getActiveSection_scan_none {t : ℝ} {sections : List SectionData}
    (h : getActiveScan t sections = none) :
    getActiveSection t sections = none := by
  unfold getActiveSection
  rw [h]

/-- C3: `getActiveSection` reports at most one section (it returns an
optional single value): any returned section is a member whose
curve-parameter distance to `t` is below the `0.06` snap threshold and
minimal among all sections; when every section's distance exceeds the
threshold it returns `null`; and when some section is inside the
window it does return one. -/
theorem C3_getActiveSection (t : ℝ) (sections : List SectionData) :
    (∀ s, getActiveSection t sections = some s →
        s ∈ sections ∧ |t - s.pathT| < 0.06
          ∧ ∀ s2 ∈ sections, |t - s.pathT| ≤ |t - s2.pathT|)
    ∧ ((∀ s ∈ sections, 0.06 < |t - s.pathT|) → getActiveSection t sections = none)
    ∧ ((∃ s ∈ sections, |t - s.pathT| < 0.06) →
        ∃ s, getActiveSection t sections = some s) := by
  refine ⟨?_, ?_, ?_⟩
  · intro s hs
    rcases heq : getActiveScan t sections with _ | ⟨s0, d0, j0⟩
    · rw [getActiveSection_scan_none heq] at hs
      simp at hs
    · rw [getActiveSection_scan_some heq] at hs
      by_cases hlt : d0 < 0.06
      · rw [if_pos hlt] at hs
        rcases Option.some.inj hs with rfl
        rcases loopClosest_mem heq with ⟨hm, hd⟩ | habs
        · subst hd
          exact ⟨hm, hlt, (loopClosest_min heq).1⟩
        · simp at habs
      · rw [if_neg hlt] at hs
        simp at hs
  · intro hall
    rcases heq : getActiveScan t sections with _ | ⟨s0, d0, j0⟩
    · exact getActiveSection_scan_none heq
    · rw [getActiveSection_scan_some heq]
      rcases loopClosest_mem heq with ⟨hm, hd⟩ | habs
      · subst hd
        rw [if_neg (not_lt.2 (le_of_lt (hall s0 hm)))]
      · simp at habs
  · rintro ⟨s, hmem, hdist⟩
    rcases heq : getActiveScan t sections with _ | ⟨s0, d0, j0⟩
    · rcases loopClosest_none heq with ⟨hnil, -⟩
      rw [hnil] at hmem
      simp at hmem
    · rw [getActiveSection_scan_some heq]
      have hmin : d0 ≤ |t - s.pathT| := (loopClosest_min heq).1 s hmem
      rw [if_pos (lt_of_le_of_lt hmin hdist)]
      exact ⟨s0, rfl⟩

/-- Witness for C3: with a single section at `pathT = 0.9` and
`currentT = 0.5` (distance 0.4, beyond the snap threshold) no section
is reported active; moving the parameter to `0.89` reports one. -/
theorem C3_getActiveSection_witness :
    getActiveSection 0.5 [⟨"projects", 0.9⟩] = none
    ∧ ∃ s, getActiveSection 0.89 [⟨"projects", 0.9⟩] = some s := by
  constructor
  · apply (C3_getActiveSection 0.5 [⟨"projects", 0.9⟩]).2.1
    intro s hs
    rcases List.mem_singleton.1 hs with rfl
    rw [show (0.5:ℝ) - (0.9:ℝ) = -0.4 by norm_num, abs_neg, abs_of_pos (by norm_num)]
    norm_num
  · apply (C3_getActiveSection 0.89 [⟨"projects", 0.9⟩]).2.2
    refine ⟨⟨"projects", 0.9⟩, List.mem_singleton.2 rfl, ?_⟩
    rw [show (0.89:ℝ) - (0.9:ℝ) = -0.01 by norm_num, abs_neg, abs_of_pos (by norm_num)]
    norm_num

/-! Navigation (claim C8). -/

theorem zget_isSome {l : List SectionData} {i : ℤ} (h0 : 0 ≤ i)
    (hlt : i < l.length) : (zget l i).isSome := by
  simp [zget, h0, hlt]

/-- C8 counterexample: the claim quantifies over every section list and
every active index, but on the empty list `goToNext` already computes
the array index `min(0 + 1, length - 1) = -1`, which underflows below
`0` (the JS code would read `sections[-1]`, get `undefined`, and throw
on `.id`). -/
theorem C8_claim_counterexample :
    goToNextIdx (([] : List SectionData).length) 0 = -1
    ∧ goToNextIdx (([] : List SectionData).length) 0 < 0
    ∧ goToNext ([] : List SectionData) 0 = none := by
  refine ⟨by decide, by decide, ?_⟩
  rfl

/-- C8 (amended): for a nonempty section list and an in-range active
index, the indices computed by `goToNext`/`goToPrev` stay within
`[0, length - 1]` and the accessed element exists; `goToNext` at the
last index stays at the last index and returns that same section, and
`goToPrev` at index `0` stays at index `0` and returns the first
section. -/
theorem C8_nav_bounds (sections : List SectionData) (i : ℤ)
    (hne : sections ≠ []) (h0 : 0 ≤ i) (hlt : i < sections.length) :
    (0 ≤ goToNextIdx sections.length i
      ∧ goToNextIdx sections.length i ≤ sections.length - 1
      ∧ 0 ≤ goToPrevIdx i ∧ goToPrevIdx i ≤ sections.length - 1)
    ∧ (goToNext sections i).isSome
    ∧ (goToPrev sections i).isSome
    ∧ (i = sections.length - 1 →
        goToNextIdx sections.length i = i ∧ goToNext sections i = zget sections i)
    ∧ (i = 0 → goToPrevIdx i = 0 ∧ goToPrev sections i = zget sections 0) := by
  have hlen : 0 < (sections.length : ℤ) := by
    have := List.length_pos.2 hne
    omega
  have hnext0 : 0 ≤ goToNextIdx sections.length i := by
    unfold goToNextIdx
    omega
  have hnext1 : goToNextIdx sections.length i ≤ sections.length - 1 := by
    unfold goToNextIdx
    omega
  have hprev0 : 0 ≤ goToPrevIdx i := by
    unfold goToPrevIdx
    omega
  have hprev1 : goToPrevIdx i ≤ sections.length - 1 := by
    unfold goToPrevIdx
    omega
  refine ⟨⟨hnext0, hnext1, hprev0, hprev1⟩, ?_, ?_, ?_, ?_⟩
  · exact zget_isSome hnext0 (by omega)
  · exact zget_isSome hprev0 (by omega)
  · intro hi
    have hidx : goToNextIdx sections.length i = i := by
      unfold goToNextIdx
      omega
    exact ⟨hidx, by unfold goToNext; rw [hidx]⟩
  · intro hi
    have hidx : goToPrevIdx i = 0 := by
      unfold goToPrevIdx
      omega
    exact ⟨hidx, by unfold goToPrev; rw [hidx]⟩

/-- Witness for C8 on a concrete 3-section list: `goToNext` at the
last index 2 and `goToPrev` at index 0 return the sections at those
same indices. -/
theorem C8_nav_bounds_witness :
    goToNext [⟨"hero", 0⟩, ⟨"projects", 0.5⟩, ⟨"contact", 1⟩] 2
        = zget [⟨"hero", 0⟩, ⟨"projects", 0.5⟩, ⟨"contact", 1⟩] 2
    ∧ goToPrev [⟨"hero", 0⟩, ⟨"projects", 0.5⟩, ⟨"contact", 1⟩] 0
        = zget [⟨"hero", 0⟩, ⟨"projects", 0.5⟩, ⟨"contact", 1⟩] 0 := by
  constructor
  · exact ((C8_nav_bounds [⟨"hero", 0⟩, ⟨"projects", 0.5⟩, ⟨"contact", 1⟩] 2
      (by simp) (by norm_num) (by simp)).2.2.2.1 (by simp)).2
  · exact ((C8_nav_bounds [⟨"hero", 0⟩, ⟨"projects", 0.5⟩, ⟨"contact", 1⟩] 0
      (by simp) (by norm_num) (by simp)).2.2.2.2 rfl).2

/-! Panel positioning (claim C5). -/

/-- C5 counterexample: with every projected corner behind the camera
(`z = 2 > 1`) and a large on-screen rectangle, `_positionPanelOnBillboard`
returns early leaving the panel untouched — it does NOT revert the
panel to the default centred layout as the claim states. -/
theorem C5_claim_counterexample :
    positionPanel ⟨0, 0, 2⟩ ⟨100, 0, 2⟩ ⟨0, 100, 2⟩ ⟨100, 100, 2⟩ 1920 1080
        = PanelOutcome.unchanged
    ∧ PanelOutcome.unchanged ≠ PanelOutcome.defaultLayout := by
  exact ⟨by rfl, by decide⟩

/-- C5 (amended): when any projected corner is behind the camera
(`ndc.z > 1`) the routine bails out with a plain early return that
leaves the panel's current inline layout untouched; the revert to the
default centred layout happens exactly in the other bail-out case,
when no corner is behind the camera and the clamped projected
rectangle is below the 80×80 minimum pixel size. -/
theorem C5_panel_bail (tl tr bl br : ProjPt) (w h : ℚ) :
    ((1 < tl.z ∨ 1 < tr.z ∨ 1 < bl.z ∨ 1 < br.z) →
      positionPanel tl tr bl br w h = PanelOutcome.unchanged)
    ∧ (tl.z ≤ 1 → tr.z ≤ 1 → bl.z ≤ 1 → br.z ≤ 1 →
        ((clampedRect tl tr bl br w h).2.2.1 - (clampedRect tl tr bl br w h).1 < 80
          ∨ (clampedRect tl tr bl br w h).2.2.2 - (clampedRect tl tr bl br w h).2.1 < 80) →
        positionPanel tl tr bl br w h = PanelOutcome.defaultLayout) := by
  constructor
  · intro hz
    unfold positionPanel
    rw [if_pos hz]
  · intro h1 h2 h3 h4 hsmall
    unfold positionPanel
    rw [if_neg (by push_neg; exact ⟨h1, h2, h3, h4⟩), if_pos hsmall]

/-- Witness for C5 at a degenerate in-front configuration: all corners
project to the same pixel, the clamped rectangle is 0×0 (below 80×80),
and the panel is reset to the default centred layout. -/
theorem C5_panel_bail_witness :
    positionPanel ⟨500, 500, 0⟩ ⟨500, 500, 0⟩ ⟨500, 500, 0⟩ ⟨500, 500, 0⟩ 1920 1080
        = PanelOutcome.defaultLayout :=
  (C5_panel_bail ⟨500, 500, 0⟩ ⟨500, 500, 0⟩ ⟨500, 500, 0⟩ ⟨500, 500, 0⟩ 1920 1080).2
    (by norm_num) (by norm_num) (by norm_num) (by norm_num)
    (by norm_num [clampedRect, min_def, max_def])

/-! Terrain road flattening (claim C4). -/

theorem smoothstepS_at_zero : smoothstepS 0 1 0 = 0 := by
  simp [smoothstepS]

theorem roadBlendH_zero {m : ℝ} (h : ℝ) (hm : m < 4) : roadBlendH h (some m) = 0 := by
  have hdiv : (m - 4) / 10 ≤ 0 := by linarith
  have harg : max 0 ((m - 4) / 10) = 0 := max_eq_left hdiv
  simp only [roadBlendH]
  rw [if_pos (by linarith : m < 4 + 10), harg, smoothstepS_at_zero, mul_zero]

/-- C4: for a terrain vertex whose minimum arc distance to the
pre-sampled path directions is below `roadWidth = 4`, the smoothstep
blend factor is `0`, the noise displacement is multiplied to exactly
`0`, and the vertex is re-placed at exactly the flat road radius `R`
along its own direction. -/
theorem C4_road_flatten (v : Vec3) (samples : List Vec3) (R h m : ℝ) (hm : m < 4) :
    smoothstepS 0 1 (max 0 ((m - 4) / 10)) = 0
    ∧ roadBlendH h (some m) = 0
    ∧ (v.length ≠ 0 →
        minArcDist ⟨v.x / v.length, v.y / v.length, v.z / v.length⟩ samples R = some m →
        createTerrainVertex v samples R
          = ⟨v.x / v.length * R, v.y / v.length * R, v.z / v.length * R⟩) := by
  have hdiv : (m - 4) / 10 ≤ 0 := by linarith
  have harg : max 0 ((m - 4) / 10) = 0 := max_eq_left hdiv
  refine ⟨by rw [harg, smoothstepS_at_zero], roadBlendH_zero h hm, ?_⟩
  intro hr hmin
  simp only [createTerrainVertex]
  rw [if_neg hr, hmin, roadBlendH_zero _ hm, add_zero]

/-- Witness for C4: the direction `(1,0,0)` with a path sample in the
same direction has arc distance `0 < 4`, so the vertex lands exactly at
radius `R = 80`. -/
theorem C4_road_flatten_witness :
    createTerrainVertex ⟨1, 0, 0⟩ [⟨1, 0, 0⟩] 80
      = ⟨(Vec3.mk 1 0 0).x / (Vec3.mk 1 0 0).length * 80,
         (Vec3.mk 1 0 0).y / (Vec3.mk 1 0 0).length * 80,
         (Vec3.mk 1 0 0).z / (Vec3.mk 1 0 0).length * 80⟩ := by
  have hlen : (Vec3.mk 1 0 0).length = 1 := by
    simp [Vec3.length]
  have hr : (Vec3.mk 1 0 0).length ≠ 0 := by
    rw [hlen]
    norm_num
  have hmin : minArcDist ⟨(Vec3.mk 1 0 0).x / (Vec3.mk 1 0 0).length,
      (Vec3.mk 1 0 0).y / (Vec3.mk 1 0 0).length,
      (Vec3.mk 1 0 0).z / (Vec3.mk 1 0 0).length⟩ [⟨1, 0, 0⟩] 80 = some 0 := by
    rw [hlen]
    norm_num [minArcDist, arcDist, Vec3.dot, Real.arccos_one]
  exact (C4_road_flatten ⟨1, 0, 0⟩ [⟨1, 0, 0⟩] 80 0 0 (by norm_num)).2.2 hr hmin

/-! Noise determinism, octave structure and bounds (claim C9). -/

theorem hash2D_nonneg (x y : ℝ) : 0 ≤ hash2D x y :=
  Int.fract_nonneg (Real.sin (x * 127.1 + y * 311.7) * 43758.5453)

theorem hash2D_lt_one (x y : ℝ) : hash2D x y < 1 :=
  Int.fract_lt_one (Real.sin (x * 127.1 + y * 311.7) * 43758.5453)

theorem fade_mem {t : ℝ} (h0 : 0 ≤ t) (h1 : t ≤ 1) :
    0 ≤ t * t * (3 - 2 * t) ∧ t * t * (3 - 2 * t) ≤ 1 := by
  constructor
  · nlinarith
  · nlinarith [mul_nonneg (sq_nonneg (1 - t)) (by linarith : (0:ℝ) ≤ 1 + 2 * t)]

theorem bilinear_bound {a b c d u v : ℝ}
    (ha0 : 0 ≤ a) (ha1 : a ≤ 1) (hb0 : 0 ≤ b) (hb1 : b ≤ 1)
    (hc0 : 0 ≤ c) (hc1 : c ≤ 1) (hd0 : 0 ≤ d) (hd1 : d ≤ 1)
    (hu0 : 0 ≤ u) (hu1 : u ≤ 1) (hv0 : 0 ≤ v) (hv1 : v ≤ 1) :
    0 ≤ a + (b - a) * u + (c - a) * v + (a - b - c + d) * u * v
    ∧ a + (b - a) * u + (c - a) * v + (a - b - c + d) * u * v ≤ 1 := by
  have hid : a + (b - a) * u + (c - a) * v + (a - b - c + d) * u * v
      = (1 - u) * (1 - v) * a + u * (1 - v) * b + (1 - u) * v * c + u * v * d := by
    ring
  have k1 : (0:ℝ) ≤ (1 - u) * (1 - v) := mul_nonneg (by linarith) (by linarith)
  have k2 : (0:ℝ) ≤ u * (1 - v) := mul_nonneg hu0 (by linarith)
  have k3 : (0:ℝ) ≤ (1 - u) * v := mul_nonneg (by linarith) hv0
  have k4 : (0:ℝ) ≤ u * v := mul_nonneg hu0 hv0
  constructor
  · rw [hid]
    have := mul_nonneg k1 ha0
    have := mul_nonneg k2 hb0
    have := mul_nonneg k3 hc0
    have := mul_nonneg k4 hd0
    linarith
  · rw [hid]
    have t1 : (1 - u) * (1 - v) * a ≤ (1 - u) * (1 - v) := mul_le_of_le_one_right k1 ha1
    have t2 : u * (1 - v) * b ≤ u * (1 - v) := mul_le_of_le_one_right k2 hb1
    have t3 : (1 - u) * v * c ≤ (1 - u) * v := mul_le_of_le_one_right k3 hc1
    have t4 : u * v * d ≤ u * v := mul_le_of_le_one_right k4 hd1
    have hsum : (1 - u) * (1 - v) + u * (1 - v) + (1 - u) * v + u * v = 1 := by ring
    linarith

theorem smoothNoise_bounds (x y : ℝ) : 0 ≤ smoothNoise x y ∧ smoothNoise x y ≤ 1 := by
  have hfx0 : (0:ℝ) ≤ x - ↑⌊x⌋ := Int.fract_nonneg x
  have hfx1 : x - ↑⌊x⌋ < 1 := Int.fract_lt_one x
  have hfy0 : (0:ℝ) ≤ y - ↑⌊y⌋ := Int.fract_nonneg y
  have hfy1 : y - ↑⌊y⌋ < 1 := Int.fract_lt_one y
  have hux := fade_mem hfx0 (le_of_lt hfx1)
  have huy := fade_mem hfy0 (le_of_lt hfy1)
  simp only [smoothNoise]
  exact bilinear_bound
    (hash2D_nonneg _ _) (le_of_lt (hash2D_lt_one _ _))
    (hash2D_nonneg _ _) (le_of_lt (hash2D_lt_one _ _))
    (hash2D_nonneg _ _) (le_of_lt (hash2D_lt_one _ _))
    (hash2D_nonneg _ _) (le_of_lt (hash2D_lt_one _ _))
    hux.1 hux.2 huy.1 huy.2

theorem fbm5_closed_form (x y : ℝ) :
    fbm x y 5 =
      (smoothNoise x y
        + 0.48 * smoothNoise (x * 2.1) (y * 2.1)
        + 0.48 ^ 2 * smoothNoise (x * 2.1 ^ 2) (y * 2.1 ^ 2)
        + 0.48 ^ 3 * smoothNoise (x * 2.1 ^ 3) (y * 2.1 ^ 3)
        + 0.48 ^ 4 * smoothNoise (x * 2.1 ^ 4) (y * 2.1 ^ 4))
      / (1 + 0.48 + 0.48 ^ 2 + 0.48 ^ 3 + 0.48 ^ 4) := by
  show (fbmLoop x y 5 (0, 1, 1, 0)).1 / (fbmLoop x y 5 (0, 1, 1, 0)).2.2.2 = _
  norm_num [fbmLoop]
  ring_nf

theorem fbm5_bounds (x y : ℝ) : 0 ≤ fbm x y 5 ∧ fbm x y 5 ≤ 1 := by
  rw [fbm5_closed_form]
  have h0 := smoothNoise_bounds x y
  have h1 := smoothNoise_bounds (x * 2.1) (y * 2.1)
  have h2 := smoothNoise_bounds (x * 2.1 ^ 2) (y * 2.1 ^ 2)
  have h3 := smoothNoise_bounds (x * 2.1 ^ 3) (y * 2.1 ^ 3)
  have h4 := smoothNoise_bounds (x * 2.1 ^ 4) (y * 2.1 ^ 4)
  have hD : (0:ℝ) < 1 + 0.48 + 0.48 ^ 2 + 0.48 ^ 3 + 0.48 ^ 4 := by norm_num
  have c1 : (0:ℝ) ≤ 0.48 := by norm_num
  have c2 : (0:ℝ) ≤ 0.48 ^ 2 := by norm_num
  have c3 : (0:ℝ) ≤ 0.48 ^ 3 := by norm_num
  have c4 : (0:ℝ) ≤ 0.48 ^ 4 := by norm_num
  constructor
  · apply div_nonneg _ (le_of_lt hD)
    have := mul_nonneg c1 h1.1
    have := mul_nonneg c2 h2.1
    have := mul_nonneg c3 h3.1
    have := mul_nonneg c4 h4.1
    linarith [h0.1]
  · rw [div_le_one hD]
    have t1 : 0.48 * smoothNoise (x * 2.1) (y * 2.1) ≤ 0.48 :=
      mul_le_of_le_one_right c1 h1.2
    have t2 : 0.48 ^ 2 * smoothNoise (x * 2.1 ^ 2) (y * 2.1 ^ 2) ≤ 0.48 ^ 2 :=
      mul_le_of_le_one_right c2 h2.2
    have t3 : 0.48 ^ 3 * smoothNoise (x * 2.1 ^ 3) (y * 2.1 ^ 3) ≤ 0.48 ^ 3 :=
      mul_le_of_le_one_right c3 h3.2
    have t4 : 0.48 ^ 4 * smoothNoise (x * 2.1 ^ 4) (y * 2.1 ^ 4) ≤ 0.48 ^ 4 :=
      mul_le_of_le_one_right c4 h4.2
    linarith [h0.2]

/-- C9: the terrain noise is a pure deterministic function of its
coordinates — `_getSurfaceDisplacement` yields identical values on
identical inputs — and `fbm` at 5 octaves is exactly the normalized
sum of 5 value-noise octaves with amplitude falloff `0.48` and
frequency growth `2.1`, with its value always in `[0, 1]`. -/
theorem C9_noise_pure (x y t1 p1 t2 p2 : ℝ) (hth : t1 = t2) (hph : p1 = p2) :
    getSurfaceDisplacement t1 p1 = getSurfaceDisplacement t2 p2
    ∧ (fbm x y 5 =
        (smoothNoise x y
          + 0.48 * smoothNoise (x * 2.1) (y * 2.1)
          + 0.48 ^ 2 * smoothNoise (x * 2.1 ^ 2) (y * 2.1 ^ 2)
          + 0.48 ^ 3 * smoothNoise (x * 2.1 ^ 3) (y * 2.1 ^ 3)
          + 0.48 ^ 4 * smoothNoise (x * 2.1 ^ 4) (y * 2.1 ^ 4))
        / (1 + 0.48 + 0.48 ^ 2 + 0.48 ^ 3 + 0.48 ^ 4))
    ∧ 0 ≤ fbm x y 5 ∧ fbm x y 5 ≤ 1 := by
  subst hth
  subst hph
  exact ⟨rfl, fbm5_closed_form x y, fbm5_bounds x y⟩

/-- Witness for C9 at concrete coordinates. -/
theorem C9_noise_pure_witness :
    getSurfaceDisplacement 1 2 = getSurfaceDisplacement 1 2
    ∧ 0 ≤ fbm 3 4 5 ∧ fbm 3 4 5 ≤ 1 :=
  ⟨(C9_noise_pure 3 4 1 2 1 2 rfl rfl).1, (C9_noise_pure 3 4 1 2 1 2 rfl rfl).2.2⟩

/-! Billboard geometry queries (claim C10). -/

theorem normalize_length_one {w : Vec3} (hw : w.length ≠ 0) : w.normalize.length = 1 := by
  have hS : 0 ≤ w.x * w.x + w.y * w.y + w.z * w.z :=
    add_nonneg (add_nonneg (mul_self_nonneg _) (mul_self_nonneg _)) (mul_self_nonneg _)
  have hne : w.x * w.x + w.y * w.y + w.z * w.z ≠ 0 := by
    intro h0
    apply hw
    simp only [Vec3.length, h0, Real.sqrt_zero]
  have hL2 : w.length * w.length = w.x * w.x + w.y * w.y + w.z * w.z :=
    Real.mul_self_sqrt hS
  have hnorm : w.normalize = ⟨w.x / w.length, w.y / w.length, w.z / w.length⟩ := by
    simp only [Vec3.normalize, if_neg hw]
  rw [hnorm]
  have hlen : Vec3.length ⟨w.x / w.length, w.y / w.length, w.z / w.length⟩
      = Real.sqrt (w.x / w.length * (w.x / w.length) + w.y / w.length * (w.y / w.length)
          + w.z / w.length * (w.z / w.length)) := rfl
  rw [hlen]
  have harg : w.x / w.length * (w.x / w.length) + w.y / w.length * (w.y / w.length)
      + w.z / w.length * (w.z / w.length) = 1 := by
    field_simp
    linarith [hL2]
  rw [harg, Real.sqrt_one]

theorem faceInfo_find_none {portals : List Portal} {sid : String}
    (h : portals.find? (fun q => q.sectionId == sid) = none) :
    getBillboardFaceInfo portals sid = none := by
  unfold getBillboardFaceInfo
  rw [h]

theorem faceInfo_board_none {portals : List Portal} {sid : String} {p : Portal}
    (h1 : portals.find? (fun q => q.sectionId == sid) = some p) (h2 : p.board = none) :
    getBillboardFaceInfo portals sid = none := by
  unfold getBillboardFaceInfo
  rw [h1]
  show faceInfoOfPortal p = none
  unfold faceInfoOfPortal
  rw [h2]

theorem faceInfo_board_some {portals : List Portal} {sid : String} {p : Portal} {m : Mat4}
    (h1 : portals.find? (fun q => q.sectionId == sid) = some p) (h2 : p.board = some m) :
    getBillboardFaceInfo portals sid =
      some ⟨Vec3.applyMatrix4 ⟨0, 0, 0.35⟩ m,
        ((Vec3.applyMatrix4 ⟨0, 0, 1⟩ m).sub (Vec3.applyMatrix4 ⟨0, 0, 0⟩ m)).normalize,
        (Vec3.applyQuaternion ⟨0, 1, 0⟩ p.groupQuat).normalize⟩ := by
  unfold getBillboardFaceInfo
  rw [h1]
  show faceInfoOfPortal p = _
  unfold faceInfoOfPortal
  rw [h2]

theorem corners_find_none {portals : List Portal} {sid : String}
    (h : portals.find? (fun q => q.sectionId == sid) = none) :
    getBillboardCorners portals sid = none := by
  unfold getBillboardCorners
  rw [h]

theorem corners_board_none {portals : List Portal} {sid : String} {p : Portal}
    (h1 : portals.find? (fun q => q.sectionId == sid) = some p) (h2 : p.board = none) :
    getBillboardCorners portals sid = none := by
  unfold getBillboardCorners
  rw [h1]
  show cornersOfPortal p = none
  unfold cornersOfPortal
  rw [h2]

theorem corners_board_some {portals : List Portal} {sid : String} {p : Portal} {m : Mat4}
    (h1 : portals.find? (fun q => q.sectionId == sid) = some p) (h2 : p.board = some m) :
    getBillboardCorners portals sid =
      some ⟨Vec3.applyMatrix4 ⟨-10, 7, 0.35⟩ m, Vec3.applyMatrix4 ⟨10, 7, 0.35⟩ m,
        Vec3.applyMatrix4 ⟨-10, -7, 0.35⟩ m, Vec3.applyMatrix4 ⟨10, -7, 0.35⟩ m,
        Vec3.smul 0.5 ((Vec3.applyMatrix4 ⟨-10, 7, 0.35⟩ m).add
          (Vec3.applyMatrix4 ⟨10, -7, 0.35⟩ m))⟩ := by
  unfold getBillboardCorners
  rw [h1]
  show cornersOfPortal p = _
  unfold cornersOfPortal
  rw [h2]

/-- C10: `getBillboardFaceInfo` and `getBillboardCorners` return `null`
(rather than throwing) for a section id matching no portal and for a
portal without a board mesh; a face-info record or corner set is
returned only when a matching portal with a board exists, and then the
face normal and up vector are the normalizations of the transformed
axes — unit length whenever the vector being normalized is nonzero. -/
theorem C10_billboard_queries (portals : List Portal) (sid : String) :
    ((∀ p ∈ portals, p.sectionId ≠ sid) →
      getBillboardFaceInfo portals sid = none ∧ getBillboardCorners portals sid = none)
    ∧ (∀ p, portals.find? (fun q => q.sectionId == sid) = some p → p.board = none →
        getBillboardFaceInfo portals sid = none ∧ getBillboardCorners portals sid = none)
    ∧ (∀ info, getBillboardFaceInfo portals sid = some info →
        (∃ p ∈ portals, p.sectionId = sid ∧ p.board.isSome)
        ∧ ∃ p m, portals.find? (fun q => q.sectionId == sid) = some p
            ∧ p.board = some m
            ∧ info.normal = ((Vec3.applyMatrix4 ⟨0, 0, 1⟩ m).sub
                (Vec3.applyMatrix4 ⟨0, 0, 0⟩ m)).normalize
            ∧ info.up = (Vec3.applyQuaternion ⟨0, 1, 0⟩ p.groupQuat).normalize
            ∧ (((Vec3.applyMatrix4 ⟨0, 0, 1⟩ m).sub
                  (Vec3.applyMatrix4 ⟨0, 0, 0⟩ m)).length ≠ 0 →
                info.normal.length = 1)
            ∧ ((Vec3.applyQuaternion ⟨0, 1, 0⟩ p.groupQuat).length ≠ 0 →
                info.up.length = 1))
    ∧ (∀ c, getBillboardCorners portals sid = some c →
        ∃ p ∈ portals, p.sectionId = sid ∧ p.board.isSome) := by
  refine ⟨?_, ?_, ?_, ?_⟩
  · intro hall
    have hf : portals.find? (fun q => q.sectionId == sid) = none := by
      rw [List.find?_eq_none]
      intro p hp
      simp only [beq_iff_eq]
      exact hall p hp
    exact ⟨faceInfo_find_none hf, corners_find_none hf⟩
  · intro p h1 h2
    exact ⟨faceInfo_board_none h1 h2, corners_board_none h1 h2⟩
  · intro info hinfo
    rcases hf : portals.find? (fun q => q.sectionId == sid) with _ | p
    · rw [faceInfo_find_none hf] at hinfo
      simp at hinfo
    · rcases hb : p.board with _ | m
      · rw [faceInfo_board_none hf hb] at hinfo
        simp at hinfo
      · rw [faceInfo_board_some hf hb] at hinfo
        have hmem : p ∈ portals := List.mem_of_find?_eq_some hf
        have hsid : p.sectionId = sid := by
          have := List.find?_some hf
          simpa [beq_iff_eq] using this
        obtain rfl := Option.some.inj hinfo
        refine ⟨⟨p, hmem, hsid, by rw [hb]; rfl⟩, p, m, hf, hb, rfl, rfl, ?_, ?_⟩
        · intro hne
          exact normalize_length_one hne
        · intro hne
          exact normalize_length_one hne
  · intro c hc
    rcases hf : portals.find? (fun q => q.sectionId == sid) with _ | p
    · rw [corners_find_none hf] at hc
      simp at hc
    · rcases hb : p.board with _ | m
      · rw [corners_board_none hf hb] at hc
        simp at hc
      · have hmem : p ∈ portals := List.mem_of_find?_eq_some hf
        have hsid : p.sectionId = sid := by
          have := List.find?_some hf
          simpa [beq_iff_eq] using this
        exact ⟨p, hmem, hsid, by rw [hb]; rfl⟩

/-- Witness for C10: with no portals built, both queries return `null`
for any id. -/
theorem C10_billboard_queries_witness :
    getBillboardFaceInfo [] "contact" = none ∧ getBillboardCorners [] "contact" = none :=
  (C10_billboard_queries [] "contact").1 (by simp)

/-! Dock-mode camera Y (claim C1). -/

theorem Vec3.lerp_zero (a b : Vec3) : Vec3.lerp a b 0 = a := by
  simp [Vec3.lerp]

theorem Vec3.lerp_one (a b : Vec3) : Vec3.lerp a b 1 = b := by
  simp [Vec3.lerp]

theorem lockFactor_at_zero : lockFactor 0 = 1 := by
  unfold lockFactor
  apply ss01_one_of
  norm_num

theorem dockPosOf_some_y (tp cp : Vec3) (f : FaceInfo) :
    (dockPosOf tp cp (some f)).y = f.center.y := rfl

/-- One locked update step: when a billboard face info is supplied, the
eased-and-clamped parameter sits exactly on the active section (lock
factor 1), and the camera position was previously `p`, the new camera Y
is the exponential blend of `p.y` toward the face-centre Y, and the
`lookAt` target is exactly the face centre. -/
theorem update_locked_y (gp gt : ℝ → Vec3) (st : CamState) (dt : ℝ) (f : FaceInfo)
    (sec : SectionData) (p : Vec3)
    (hact : st.activeSection = some sec)
    (hlock : clampT (easeStep st.currentT st.targetT 1.8 dt) = sec.pathT)
    (hpos : st.currentPos = some p) :
    (update gp gt st dt (some f)).1.cameraPos.y
      = p.y + (f.center.y - p.y) * (1 - Real.exp (-(3.5 * dt)))
    ∧ (update gp gt st dt (some f)).1.cameraLook = f.center := by
  have hl1 : lockTIn (clampT (easeStep st.currentT st.targetT 1.8 dt)) (some f)
      st.activeSection = 1 := by
    rw [hact]
    simp only [lockTIn]
    rw [hlock, sub_self, abs_zero]
    exact lockFactor_at_zero
  constructor
  · simp only [update, hl1, hpos, Option.getD_some,
      if_pos (show (0.001:ℝ) < 1 by norm_num), sub_self, Vec3.lerp_zero]
    show p.y + ((dockPosOf _ _ (some f)).y - p.y) * (1 - Real.exp (-(3.5 * dt))) = _
    rw [dockPosOf_some_y]
  · simp only [update, hl1, if_pos (show (0.001:ℝ) < 1 by norm_num), Vec3.lerp_one]

/-- C1 (amended): the dock target position is built with its Y set
exactly to the billboard face-centre Y; with lock factor 1 the camera's
Y after `update` is the exponential blend of its previous Y toward the
face-centre Y (factor `1 - exp(-3.5·dt)` per frame), so it equals the
face-centre Y whenever the camera's Y was already there — and the
`lookAt` target is then exactly the face centre, so the look vector's
vertical component vanishes once the Y has converged.  (One `update`
from an arbitrary previous position does not yet place the camera Y
within epsilon of the face-centre Y; see the counterexample.) -/
theorem C1_dock_y_snap (gp gt : ℝ → Vec3) (st : CamState) (dt : ℝ) (f : FaceInfo)
    (sec : SectionData) (p tp cp : Vec3)
    (hact : st.activeSection = some sec)
    (hlock : clampT (easeStep st.currentT st.targetT 1.8 dt) = sec.pathT)
    (hpos : st.currentPos = some p) :
    (dockPosOf tp cp (some f)).y = f.center.y
    ∧ (update gp gt st dt (some f)).1.cameraPos.y - f.center.y
        = (p.y - f.center.y) * Real.exp (-(3.5 * dt))
    ∧ (p.y = f.center.y →
        (update gp gt st dt (some f)).1.cameraPos.y = f.center.y)
    ∧ (update gp gt st dt (some f)).1.cameraLook = f.center := by
  obtain ⟨hy, hlook⟩ := update_locked_y gp gt st dt f sec p hact hlock hpos
  refine ⟨rfl, by rw [hy]; ring, ?_, hlook⟩
  intro hpy
  rw [hy, hpy]
  ring

/-- Witness for C1: a state resting exactly on the section at
`pathT = 0.5`, with the camera's Y already at the face-centre Y `5`;
after `update` the camera Y equals 5 and the look target is the face
centre `(10, 5, 0)`. -/
theorem C1_dock_y_snap_witness :
    (update (fun _ => ⟨1, 0, 0⟩) (fun _ => ⟨0, 0, 1⟩)
        { currentT := 0.5, targetT := 0.5, activeSectionIndex := 0,
          activeSection := some ⟨"projects", 0.5⟩, sections := [], mouseX := 0,
          mouseY := 0, px := 0, py := 0, currentPos := some ⟨0, 5, 0⟩,
          currentUp := ⟨0, 0, 1⟩, cameraPos := ⟨10, 5, 20⟩, cameraUp := ⟨0, 1, 0⟩,
          cameraLook := ⟨0, 0, 0⟩ } 1
        (some ⟨⟨10, 5, 0⟩, ⟨0, 0, 1⟩, ⟨0, 1, 0⟩⟩)).1.cameraPos.y
      = (FaceInfo.mk ⟨10, 5, 0⟩ ⟨0, 0, 1⟩ ⟨0, 1, 0⟩).center.y
    ∧ (update (fun _ => ⟨1, 0, 0⟩) (fun _ => ⟨0, 0, 1⟩)
        { currentT := 0.5, targetT := 0.5, activeSectionIndex := 0,
          activeSection := some ⟨"projects", 0.5⟩, sections := [], mouseX := 0,
          mouseY := 0, px := 0, py := 0, currentPos := some ⟨0, 5, 0⟩,
          currentUp := ⟨0, 0, 1⟩, cameraPos := ⟨10, 5, 20⟩, cameraUp := ⟨0, 1, 0⟩,
          cameraLook := ⟨0, 0, 0⟩ } 1
        (some ⟨⟨10, 5, 0⟩, ⟨0, 0, 1⟩, ⟨0, 1, 0⟩⟩)).1.cameraLook
      = (FaceInfo.mk ⟨10, 5, 0⟩ ⟨0, 0, 1⟩ ⟨0, 1, 0⟩).center := by
  have hlock : clampT (easeStep 0.5 0.5 1.8 1) = (0.5:ℝ) := by
    norm_num [easeStep, clampT, min_def, max_def]
  have h := C1_dock_y_snap (fun _ => ⟨1, 0, 0⟩) (fun _ => ⟨0, 0, 1⟩)
    { currentT := 0.5, targetT := 0.5, activeSectionIndex := 0,
      activeSection := some ⟨"projects", 0.5⟩, sections := [], mouseX := 0,
      mouseY := 0, px := 0, py := 0, currentPos := some ⟨0, 5, 0⟩,
      currentUp := ⟨0, 0, 1⟩, cameraPos := ⟨10, 5, 20⟩, cameraUp := ⟨0, 1, 0⟩,
      cameraLook := ⟨0, 0, 0⟩ } 1
    ⟨⟨10, 5, 0⟩, ⟨0, 0, 1⟩, ⟨0, 1, 0⟩⟩ ⟨"projects", 0.5⟩ ⟨0, 5, 0⟩ ⟨0, 0, 0⟩ ⟨0, 0, 0⟩
    rfl hlock rfl
  exact ⟨h.2.2.1 rfl, h.2.2.2⟩

/-- C1 counterexample: with lock factor exactly 1 (the eased parameter
sits on the section at `pathT = 0.5`) and the billboard face centre at
`(10, 5, 0)`, one `update` from a camera previously at Y = 100 leaves
the camera Y near 94.8 — not within `1e-3` of the face-centre Y 5 as
the claim asserts — because the dock position is only blended in
exponentially (`posAlpha = 1 - exp(-3.5·dt) < 1`). -/
theorem C1_claim_counterexample :
    lockTIn (clampT (easeStep 0.5 0.5 1.8 1))
        (some ⟨⟨10, 5, 0⟩, ⟨0, 0, 1⟩, ⟨0, 1, 0⟩⟩) (some ⟨"projects", 0.5⟩) = 1
    ∧ ¬ (|(update (fun _ => ⟨1, 0, 0⟩) (fun _ => ⟨0, 0, 1⟩)
        { currentT := 0.5, targetT := 0.5, activeSectionIndex := 0,
          activeSection := some ⟨"projects", 0.5⟩, sections := [], mouseX := 0,
          mouseY := 0, px := 0, py := 0, currentPos := some ⟨0, 100, 0⟩,
          currentUp := ⟨0, 0, 1⟩, cameraPos := ⟨10, 5, 20⟩, cameraUp := ⟨0, 1, 0⟩,
          cameraLook := ⟨0, 0, 0⟩ } 1
        (some ⟨⟨10, 5, 0⟩, ⟨0, 0, 1⟩, ⟨0, 1, 0⟩⟩)).1.cameraPos.y - 5| ≤ 1e-3) := by
  have hlock : clampT (easeStep 0.5 0.5 1.8 1) = (0.5:ℝ) := by
    norm_num [easeStep, clampT, min_def, max_def]
  constructor
  · rw [hlock]
    simp only [lockTIn]
    rw [show |(0.5:ℝ) - (SectionData.mk "projects" 0.5).pathT| = 0 by norm_num]
    exact lockFactor_at_zero
  · have h := update_locked_y (fun _ => ⟨1, 0, 0⟩) (fun _ => ⟨0, 0, 1⟩)
      { currentT := 0.5, targetT := 0.5, activeSectionIndex := 0,
        activeSection := some ⟨"projects", 0.5⟩, sections := [], mouseX := 0,
        mouseY := 0, px := 0, py := 0, currentPos := some ⟨0, 100, 0⟩,
        currentUp := ⟨0, 0, 1⟩, cameraPos := ⟨10, 5, 20⟩, cameraUp := ⟨0, 1, 0⟩,
        cameraLook := ⟨0, 0, 0⟩ } 1
      ⟨⟨10, 5, 0⟩, ⟨0, 0, 1⟩, ⟨0, 1, 0⟩⟩ ⟨"projects", 0.5⟩ ⟨0, 100, 0⟩
      rfl hlock rfl
    rw [not_le, h.1]
    have hub : Real.exp (3.5:ℝ) < 55 := by
      have h4 : Real.exp (3.5:ℝ) < Real.exp 4 := by
        apply Real.exp_lt_exp.2
        norm_num
      have hpow : Real.exp (4:ℝ) = Real.exp 1 ^ (4:ℕ) := by
        rw [← Real.exp_nat_mul]
        norm_num
      rw [hpow] at h4
      have he1 : Real.exp 1 < 2.7182818286 := Real.exp_one_lt_d9
      calc Real.exp (3.5:ℝ) < Real.exp 1 ^ (4:ℕ) := h4
        _ ≤ 2.7182818286 ^ (4:ℕ) := by
            apply pow_le_pow_left (le_of_lt (Real.exp_pos 1)) (le_of_lt he1)
        _ < 55 := by norm_num
    have hlb : (1:ℝ) / 55 < Real.exp (-(3.5 * 1)) := by
      rw [show -((3.5:ℝ) * 1) = -3.5 by norm_num, Real.exp_neg]
      rw [← one_div]
      exact one_div_lt_one_div_of_lt (Real.exp_pos _) hub
    have hval : ((Vec3.mk 0 100 0).y
        + ((FaceInfo.mk ⟨10, 5, 0⟩ ⟨0, 0, 1⟩ ⟨0, 1, 0⟩).center.y - (Vec3.mk 0 100 0).y)
          * (1 - Real.exp (-(3.5 * 1)))) - 5
        = 95 * Real.exp (-(3.5 * 1)) := by
      show (100:ℝ) + ((5:ℝ) - 100) * (1 - Real.exp (-(3.5 * 1))) - 5
          = 95 * Real.exp (-(3.5 * 1))
      ring
    rw [hval, abs_of_pos (by positivity)]
    calc (1e-3:ℝ) < 95 * (1 / 55) := by norm_num
      _ < 95 * Real.exp (-(3.5 * 1)) := by nlinarith [hlb]

end ZacStern
